import Mathlib

/-!
# Verification of the rag-forge ingestion and RAG answer pipelines

Shallow embedding of the core of `rag-forge` (a PDF RAG service): the text
normalizer (`src/utils.py`), the ingestion pipeline (`src/ingest.py`), the
batch upload endpoint (`src/main.py`), the RAG answer pipeline (`src/rag.py`),
the provider-fallback completion engine (`src/llm_providers/fallback.py`) and
the health check (`src/es_client.py`).

External collaborators (PDF reader, OCR subprocess, the embedding provider,
the vector engine, the two completion providers) are modelled as explicit
environment records describing the outcome of each external call, so that the
control flow of the source — which is what the verified claims are about — is
embedded faithfully while the outside world stays abstract.
-/

/-! ## Text normalizer (`src/utils.py`, `normalize_text`)

`normalize_text` performs, in order:
1. `text.replace("-\n", "")` — Python `str.replace`: non-overlapping
   occurrences found left to right in the original string, not rescanning the
   replaced output;
2. `re.sub(r"\n{2,}", "\n", text)` — every maximal run of newlines becomes a
   single newline (runs of length one are left as the same single newline);
3. `re.sub(r"[ \t]+", " ", text)` — every maximal run of spaces/tabs becomes
   a single space;
4. `text.strip()` — remove leading and trailing whitespace
   (space, tab, newline, carriage return, vertical tab, form feed).
Strings are modelled as their character lists.
-/

/-- Python whitespace class used by `str.strip()` (ASCII part). -/
def pyWs (c : Char) : Bool :=
  c = ' ' || c = '\t' || c = '\n' || c = '\r' || c = '\x0b' || c = '\x0c'

/-- Step 1: `text.replace("-\n", "")`.  Python scans left to right over the
original string; a replacement does not rescan the just-produced junction. -/
def replaceDashNL : List Char → List Char
  | [] => []
  | [c] => [c]
  | c1 :: c2 :: rest =>
    if c1 = '-' && c2 = '\n' then replaceDashNL rest
    else c1 :: replaceDashNL (c2 :: rest)

/-- Steps 2 and 3 share one shape: replace every maximal run of characters
satisfying `p` by the single character `rep`.  The `inRun` flag records
whether the previous input character was part of a `p`-run. -/
def collapseRunsAux (p : Char → Bool) (rep : Char) : Bool → List Char → List Char
  | _, [] => []
  | inRun, c :: rest =>
    if p c then
      if inRun then collapseRunsAux p rep true rest
      else rep :: collapseRunsAux p rep true rest
    else c :: collapseRunsAux p rep false rest

def collapseRuns (p : Char → Bool) (rep : Char) (l : List Char) : List Char :=
  collapseRunsAux p rep false l

/-- Newline class of `re.sub(r"\n{2,}", "\n", ...)`. -/
def isNL (c : Char) : Bool := c = '\n'

/-- Horizontal-whitespace class of `re.sub(r"[ \t]+", " ", ...)`. -/
def isHT (c : Char) : Bool := c = ' ' || c = '\t'

/-- Step 4: `text.strip()`. -/
def pyStrip (l : List Char) : List Char :=
  (l.dropWhile pyWs).rdropWhile pyWs

/-- `normalize_text` on character lists (`src/utils.py` lines 103-107). -/
def normalizeChars (l : List Char) : List Char :=
  pyStrip (collapseRuns isHT ' ' (collapseRuns isNL '\n' (replaceDashNL l)))

/-- `normalize_text(text)` from `src/utils.py`. -/
def normalize_text (s : String) : String :=
  String.mk (normalizeChars s.data)

/-- Does the list contain the two-character sequence `-\n`? -/
def containsDashNL : List Char → Bool
  | [] => false
  | [_] => false
  | c1 :: c2 :: rest => (c1 = '-' && c2 = '\n') || containsDashNL (c2 :: rest)

/-- No two adjacent characters both satisfy `p`. -/
def noAdjPair (p : Char → Bool) : List Char → Bool
  | [] => true
  | [_] => true
  | c1 :: c2 :: rest => !(p c1 && p c2) && noAdjPair p (c2 :: rest)

/-- The first and the last character (when they exist) are not whitespace. -/
def strippedEnds (l : List Char) : Bool :=
  (match l.head? with
   | some c => !pyWs c
   | none => true) &&
  (match l.getLast? with
   | some c => !pyWs c
   | none => true)

example : normalize_text "  hello   world\n\n\nbye  " = "hello world\nbye" := by decide

example : normalize_text "hyphen-\nated" = "hyphenated" := by decide

example : normalize_text "a--\n\nb" = "a-\nb" := by decide

example : normalize_text (normalize_text "a--\n\nb") = "ab" := by decide

/-! ### Structural lemmas about the normalizer stages -/

/-- Does the head of the list (when it exists) satisfy `p`? -/
def headP (p : Char → Bool) (l : List Char) : Bool :=
  match l.head? with
  | some c => p c
  | none => false

theorem noAdjPair_cons (p : Char → Bool) (c : Char) (l : List Char) :
    noAdjPair p (c :: l) = (!(p c && headP p l) && noAdjPair p l) := by
  cases l <;> simp [noAdjPair, headP]

/-- Inside a run, the next emitted character is never a `p`-character. -/
theorem headP_collapse_true (p : Char → Bool) (rep : Char) :
    ∀ l, headP p (collapseRunsAux p rep true l) = false
  | [] => rfl
  | c :: rest => by
    cases hpc : p c with
    | true => simpa [collapseRunsAux, hpc] using headP_collapse_true p rep rest
    | false => simp [collapseRunsAux, hpc, headP]

/-- Outside a run, a `q`-satisfying head of the output must come from a
`q`-satisfying head of the input (when `q` rejects the replacement char). -/
theorem headP_collapse_false (p q : Char → Bool) (rep : Char) (hrep : q rep = false)
    (l : List Char) (h : headP q (collapseRunsAux p rep false l) = true) :
    headP q l = true := by
  cases l with
  | nil => simp [collapseRunsAux, headP] at h
  | cons c rest =>
    cases hpc : p c with
    | true => simp [collapseRunsAux, hpc, headP, hrep] at h
    | false => simpa [collapseRunsAux, hpc, headP] using h

/-- Collapsing `p`-runs leaves no two adjacent `p`-characters. -/
theorem noAdjPair_collapse_self (p : Char → Bool) (rep : Char) :
    ∀ (b : Bool) (l : List Char), noAdjPair p (collapseRunsAux p rep b l) = true
  | b, [] => by cases b <;> rfl
  | b, c :: rest => by
    cases hpc : p c with
    | true =>
      cases b with
      | true => simpa [collapseRunsAux, hpc] using noAdjPair_collapse_self p rep true rest
      | false =>
        have h1 := noAdjPair_collapse_self p rep true rest
        have h2 := headP_collapse_true p rep rest
        simp [collapseRunsAux, hpc, noAdjPair_cons, h1, h2]
    | false =>
      have h1 := noAdjPair_collapse_self p rep false rest
      simp [collapseRunsAux, hpc, noAdjPair_cons, h1]

/-- Collapsing `p`-runs preserves the absence of adjacent `q`-pairs, for any
class `q` disjoint from `p` that also rejects the replacement character. -/
theorem noAdjPair_collapse_keep (p q : Char → Bool) (rep : Char)
    (hpq : ∀ c, p c = true → q c = false) (hrep : q rep = false) :
    ∀ (b : Bool) (l : List Char), noAdjPair q l = true →
      noAdjPair q (collapseRunsAux p rep b l) = true
  | b, [], _ => by cases b <;> rfl
  | b, c :: rest, h => by
    have hrest : noAdjPair q rest = true := by
      rw [noAdjPair_cons] at h
      exact (Bool.and_eq_true_iff.mp h).2
    cases hpc : p c with
    | true =>
      cases b with
      | true =>
        simpa [collapseRunsAux, hpc]
          using noAdjPair_collapse_keep p q rep hpq hrep true rest hrest
      | false =>
        have h1 := noAdjPair_collapse_keep p q rep hpq hrep true rest hrest
        simp [collapseRunsAux, hpc, noAdjPair_cons, h1, hrep]
    | false =>
      have h1 := noAdjPair_collapse_keep p q rep hpq hrep false rest hrest
      have hout := headP_collapse_false p q rep hrep rest
      cases hqc : q c with
      | false => simp [collapseRunsAux, hpc, noAdjPair_cons, h1, hqc]
      | true =>
        have hhr : headP q rest = false := by
          rw [noAdjPair_cons] at h
          rcases Bool.and_eq_true_iff.mp h with ⟨h2, _⟩
          cases hh : headP q rest
          · rfl
          · rw [hqc, hh] at h2
            simp at h2
        have hof : headP q (collapseRunsAux p rep false rest) = false := by
          cases hh : headP q (collapseRunsAux p rep false rest)
          · rfl
          · exact absurd (hout hh) (by simp [hhr])
        simp [collapseRunsAux, hpc, noAdjPair_cons, h1, hof]

/-- Every `p`-character in the collapsed output is the replacement char. -/
theorem mem_collapse_rep (p : Char → Bool) (rep : Char) :
    ∀ (b : Bool) (l : List Char) (c : Char), c ∈ collapseRunsAux p rep b l →
      c = rep ∨ p c = false
  | b, [], c, h => by cases b <;> simp [collapseRunsAux] at h
  | b, d :: rest, c, h => by
    cases hpd : p d with
    | true =>
      cases b with
      | true =>
        exact mem_collapse_rep p rep true rest c (by simpa [collapseRunsAux, hpd] using h)
      | false =>
        rcases List.mem_cons.mp (by simpa [collapseRunsAux, hpd] using h) with h' | h'
        · exact Or.inl h'
        · exact mem_collapse_rep p rep true rest c h'
    | false =>
      rcases List.mem_cons.mp (by simpa [collapseRunsAux, hpd] using h) with h' | h'
      · subst h'
        exact Or.inr hpd
      · exact mem_collapse_rep p rep false rest c h'

/-- Relational form of `noAdjPair`, to transport it along infixes. -/
def adjOkRel (q : Char → Bool) (a b : Char) : Prop := q a = false ∨ q b = false

theorem noAdjPair_iff_chain (q : Char → Bool) :
    ∀ l : List Char, noAdjPair q l = true ↔ List.Chain' (adjOkRel q) l
  | [] => by simp [noAdjPair]
  | [c] => by simp [noAdjPair]
  | c1 :: c2 :: rest => by
    rw [List.chain'_cons, ← noAdjPair_iff_chain q (c2 :: rest)]
    simp only [noAdjPair, adjOkRel, Bool.and_eq_true, Bool.not_eq_true',
      Bool.and_eq_false_iff]

theorem noAdjPair_within (q : Char → Bool) {l1 l : List Char}
    (hsub : l1 <:+: l) (h : noAdjPair q l = true) : noAdjPair q l1 = true := by
  rw [noAdjPair_iff_chain] at h ⊢
  exact List.Chain'.infix h hsub

theorem pyStrip_within (l : List Char) : pyStrip l <:+: l := by
  obtain ⟨t, ht⟩ := List.rdropWhile_prefix pyWs (l.dropWhile pyWs)
  obtain ⟨s, hs⟩ := List.dropWhile_suffix (l := l) pyWs
  refine ⟨s, t, ?_⟩
  have hps : pyStrip l = (l.dropWhile pyWs).rdropWhile pyWs := rfl
  calc s ++ pyStrip l ++ t = s ++ (pyStrip l ++ t) := by rw [List.append_assoc]
    _ = s ++ l.dropWhile pyWs := by rw [hps, ht]
    _ = l := hs

theorem headP_dropWhile (p : Char → Bool) : ∀ l : List Char, headP p (l.dropWhile p) = false
  | [] => rfl
  | c :: rest => by
    cases hpc : p c with
    | true => simpa [List.dropWhile_cons, hpc] using headP_dropWhile p rest
    | false => simp [List.dropWhile_cons, hpc, headP]

theorem head_eq_of_pre {l1 l2 : List Char} (h : l1 <+: l2) (hne : l1 ≠ []) :
    l1.head? = l2.head? := by
  obtain ⟨t, rfl⟩ := h
  cases l1 with
  | nil => exact absurd rfl hne
  | cons a l => simp

theorem strippedEnds_pyStrip (l : List Char) : strippedEnds (pyStrip l) = true := by
  by_cases hne : pyStrip l = []
  · rw [hne]
    rfl
  · have hpre := List.rdropWhile_prefix pyWs (l.dropWhile pyWs)
    have hh : (pyStrip l).head? = (l.dropWhile pyWs).head? := head_eq_of_pre hpre hne
    have hhead : headP pyWs (pyStrip l) = false := by
      have hd := headP_dropWhile pyWs l
      unfold headP at hd ⊢
      rw [hh]
      exact hd
    have hlast : pyWs ((pyStrip l).getLast hne) = false := by
      have hln := List.rdropWhile_last_not pyWs (l.dropWhile pyWs) hne
      simpa using hln
    have hlast2 : (pyStrip l).getLast? = some ((pyStrip l).getLast hne) :=
      List.getLast?_eq_getLast _ hne
    unfold strippedEnds
    rw [hlast2]
    cases hcn : (pyStrip l).head? with
    | none =>
      exact absurd (List.head?_eq_none_iff.mp hcn) hne
    | some c =>
      unfold headP at hhead
      rw [hcn] at hhead
      simp only [] at hhead
      simp [hhead, hlast]

/-! ### Identity lemmas: each stage fixes an already-normalized string -/

theorem replaceDashNL_id : ∀ l : List Char, containsDashNL l = false → replaceDashNL l = l
  | [], _ => rfl
  | [c], _ => rfl
  | c1 :: c2 :: rest, h => by
    have h' : (c1 = '-' && c2 = '\n') = false ∧ containsDashNL (c2 :: rest) = false := by
      have := h
      unfold containsDashNL at this
      exact Bool.or_eq_false_iff.mp this
    obtain ⟨h1, h2⟩ := h'
    simp [replaceDashNL, h1, replaceDashNL_id (c2 :: rest) h2]

theorem collapse_id (p : Char → Bool) (rep : Char) :
    ∀ l : List Char, noAdjPair p l = true → (∀ c ∈ l, p c = true → c = rep) →
      collapseRunsAux p rep false l = l ∧
        (headP p l = false → collapseRunsAux p rep true l = l)
  | [], _, _ => ⟨rfl, fun _ => rfl⟩
  | c :: rest, h, hmem => by
    have hrest : noAdjPair p rest = true := by
      rw [noAdjPair_cons] at h
      exact (Bool.and_eq_true_iff.mp h).2
    have hmem' : ∀ d ∈ rest, p d = true → d = rep :=
      fun d hd => hmem d (List.mem_cons_of_mem c hd)
    cases hpc : p c with
    | true =>
      have hcrep : c = rep := hmem c (List.mem_cons_self c rest) hpc
      have hhr : headP p rest = false := by
        rw [noAdjPair_cons] at h
        rcases Bool.and_eq_true_iff.mp h with ⟨h2, _⟩
        cases hh : headP p rest
        · rfl
        · rw [hpc, hh] at h2
          simp at h2
      have htrue : collapseRunsAux p rep true rest = rest :=
        (collapse_id p rep rest hrest hmem').2 hhr
      constructor
      · have hstep : collapseRunsAux p rep false (c :: rest) =
            rep :: collapseRunsAux p rep true rest := by
          simp [collapseRunsAux, hpc]
        rw [hstep, htrue, ← hcrep]
      · intro hfalse
        unfold headP at hfalse
        simp [hpc] at hfalse
    | false =>
      have hzero := (collapse_id p rep rest hrest hmem').1
      constructor
      · simp [collapseRunsAux, hpc, hzero]
      · intro _
        simp [collapseRunsAux, hpc, hzero]

theorem pyStrip_id (l : List Char) (h : strippedEnds l = true) : pyStrip l = l := by
  unfold strippedEnds at h
  rw [Bool.and_eq_true_iff] at h
  obtain ⟨h1, h2⟩ := h
  have hdw : l.dropWhile pyWs = l := by
    cases l with
    | nil => rfl
    | cons c rest =>
      simp only [List.head?_cons] at h1
      rw [Bool.not_eq_true'] at h1
      rw [List.dropWhile_cons]
      simp [h1]
  have hps : pyStrip l = (l.dropWhile pyWs).rdropWhile pyWs := rfl
  rw [hps, hdw, List.rdropWhile_eq_self_iff]
  intro hl
  have hg := List.getLast?_eq_getLast l hl
  rw [hg] at h2
  simp only [] at h2
  simp only [Bool.not_eq_true]
  rw [Bool.not_eq_true'] at h2
  exact h2

/-! ### The whitespace invariants of the normalizer output (shared helper) -/

theorem normalizeChars_inv (l : List Char) :
    noAdjPair isNL (normalizeChars l) = true ∧
    noAdjPair isHT (normalizeChars l) = true ∧
    strippedEnds (normalizeChars l) = true ∧
    (∀ c ∈ normalizeChars l, isHT c = true → c = ' ') := by
  have hdisj : ∀ c, isHT c = true → isNL c = false := by
    intro c hc
    have hc' : c = ' ' ∨ c = '\t' := by
      simpa [isHT, Bool.or_eq_true, decide_eq_true_eq] using hc
    rcases hc' with rfl | rfl <;> decide
  have hNL2 : noAdjPair isNL (collapseRuns isNL '\n' (replaceDashNL l)) = true :=
    noAdjPair_collapse_self isNL '\n' false (replaceDashNL l)
  have hNL3 : noAdjPair isNL
      (collapseRuns isHT ' ' (collapseRuns isNL '\n' (replaceDashNL l))) = true :=
    noAdjPair_collapse_keep isHT isNL ' ' hdisj (by decide) false _ hNL2
  have hHT3 : noAdjPair isHT
      (collapseRuns isHT ' ' (collapseRuns isNL '\n' (replaceDashNL l))) = true :=
    noAdjPair_collapse_self isHT ' ' false _
  have hnc : normalizeChars l =
      pyStrip (collapseRuns isHT ' ' (collapseRuns isNL '\n' (replaceDashNL l))) := rfl
  refine ⟨?_, ?_, ?_, ?_⟩
  · rw [hnc]
    exact noAdjPair_within isNL (pyStrip_within _) hNL3
  · rw [hnc]
    exact noAdjPair_within isHT (pyStrip_within _) hHT3
  · rw [hnc]
    exact strippedEnds_pyStrip _
  · intro c hc hht
    rw [hnc] at hc
    obtain ⟨s, t, hst⟩ :=
      pyStrip_within (collapseRuns isHT ' ' (collapseRuns isNL '\n' (replaceDashNL l)))
    have hmem : c ∈ collapseRuns isHT ' ' (collapseRuns isNL '\n' (replaceDashNL l)) := by
      rw [← hst]
      simp [hc]
    rcases mem_collapse_rep isHT ' ' false _ c hmem with h' | h'
    · exact h'
    · rw [hht] at h'
      simp at h'

/-! ## Claims C7 and C8: properties of `normalize_text` -/

/-- C8 (counterexample): the claim that the output of `normalize_text`
contains no `"-\n"` sequence is false.  On `"x--\n\ny"` the hyphen-removal
step deletes the inner `"-\n"` and thereby joins the surrounding `-` and `\n`
into a fresh `"-\n"` that the later stages keep. -/
theorem normalize_dashNL_counterexample :
    containsDashNL (normalize_text "x--\n\ny").data = true := by decide

/-- C8 (amended): for every string input the output of `normalize_text` has
no run of two or more consecutive newlines, no run of repeated horizontal
whitespace (adjacent space/tab characters), and no leading or trailing
whitespace.  (The further claimed absence of `"-\n"` sequences does not hold,
see the counterexample.) -/
theorem normalize_output_invariants (s : String) :
    noAdjPair isNL (normalize_text s).data = true ∧
    noAdjPair isHT (normalize_text s).data = true ∧
    strippedEnds (normalize_text s).data = true := by
  have h := normalizeChars_inv s.data
  exact ⟨h.1, h.2.1, h.2.2.1⟩

/-- C7 (counterexample): `normalize_text` is not idempotent.  On
`"a--\n\nb"` one application yields `"a-\nb"`, which still contains a
`"-\n"` junction, and a second application removes it, yielding `"ab"`. -/
theorem normalize_not_idempotent :
    normalize_text (normalize_text "a--\n\nb") ≠ normalize_text "a--\n\nb" := by decide

/-- C7 (amended): `normalize_text` is idempotent on every input whose
normalized form contains no residual `"-\n"` sequence (the hyphen-removal
step can create such residuals, which is the only obstruction). -/
theorem normalize_idempotent_of_no_dashNL (s : String)
    (h : containsDashNL (normalize_text s).data = false) :
    normalize_text (normalize_text s) = normalize_text s := by
  obtain ⟨hNL, hHT, hstrip, hmem⟩ := normalizeChars_inv s.data
  have h1 : replaceDashNL (normalizeChars s.data) = normalizeChars s.data :=
    replaceDashNL_id _ h
  have h2 : collapseRuns isNL '\n' (normalizeChars s.data) = normalizeChars s.data := by
    refine (collapse_id isNL '\n' _ hNL ?_).1
    intro c _ hc
    exact of_decide_eq_true hc
  have h3 : collapseRuns isHT ' ' (normalizeChars s.data) = normalizeChars s.data :=
    (collapse_id isHT ' ' _ hHT hmem).1
  have h4 : pyStrip (normalizeChars s.data) = normalizeChars s.data :=
    pyStrip_id _ hstrip
  show String.mk (normalizeChars (normalizeChars s.data)) = String.mk (normalizeChars s.data)
  unfold normalizeChars
  unfold normalizeChars at h1 h2 h3 h4
  rw [h1, h2, h3, h4]

/-- Witness for the amended C7 at a concrete input. -/
theorem normalize_idempotent_witness :
    containsDashNL (normalize_text "hello  world").data = false ∧
    normalize_text (normalize_text "hello  world") = normalize_text "hello  world" :=
  ⟨by decide, normalize_idempotent_of_no_dashNL "hello  world" (by decide)⟩

/-! ## Ingestion: `insert_chunks` (`src/ingest.py` lines 95-159)

Chunks are modelled by their text content, vectors by opaque identifiers.
The external engine is abstracted by a `BulkEnv`: whether the target index
is missing (the `NotFoundError` path) and which records still fail after the
engine's internal retries. -/

/-- Environment describing the external vector engine for one bulk call. -/
structure BulkEnv where
  notFound : Bool
  failing : String × Nat → Bool

/-- Modelled from the spec: the external engine's bulk helper (`async_bulk`,
spec §6 `bulkUpsert`) is not part of this repository.  Called with
`raise_on_error=False` it returns the count of successfully indexed records
together with the list of records that still failed after the engine's
internal retries (`max_retries=3`), rather than raising. -/
def bulkUpsertContract (actions : List (String × Nat))
    (failing : String × Nat → Bool) : Nat × List (String × Nat) :=
  ((actions.filter (fun a => !failing a)).length, actions.filter failing)

/-- The exceptions `insert_chunks` can raise: `ValueError` on invalid input,
`NotFoundError` when the index is missing, and the bulk-index error carrying
the failed count. -/
inductive InsErr
  | valueErr
  | notFound
  | bulkIndexErr (nFailed : Nat)
deriving DecidableEq

instance {ε α : Type} [DecidableEq ε] [DecidableEq α] : DecidableEq (Except ε α)
  | Except.ok x, Except.ok y =>
    if h : x = y then isTrue (by rw [h])
    else isFalse (by intro hh; cases hh; exact h rfl)
  | Except.ok _, Except.error _ => isFalse (by intro hh; cases hh)
  | Except.error _, Except.ok _ => isFalse (by intro hh; cases hh)
  | Except.error e, Except.error f =>
    if h : e = f then isTrue (by rw [h])
    else isFalse (by intro hh; cases hh; exact h rfl)

/-- Observable outcome of one `insert_chunks` call: how many index records
were constructed, how many calls reached the engine, the logged
`(succeeded, failed)` accounting (when reached), and the raised error or
normal return. -/
structure InsertResult where
  recordsBuilt : Nat
  engineCalls : Nat
  report : Option (Nat × Nat)
  result : Except InsErr Unit
deriving DecidableEq

/-- `insert_chunks(docs, vectors)` from `src/ingest.py`: validate inputs,
build one action per `(doc, vector)` pair, run the bulk helper, log the
accounting, and raise iff any record failed after retries. -/
def insert_chunks (docs : List String) (vectors : List Nat) (env : BulkEnv) :
    InsertResult :=
  if docs.isEmpty || vectors.isEmpty || docs.length != vectors.length then
    ⟨0, 0, none, Except.error InsErr.valueErr⟩
  else
    let actions := docs.zip vectors
    if env.notFound then ⟨actions.length, 1, none, Except.error InsErr.notFound⟩
    else
      let sf := bulkUpsertContract actions env.failing
      ⟨actions.length, 1, some (sf.1, sf.2.length),
        if 0 < sf.2.length then Except.error (InsErr.bulkIndexErr sf.2.length)
        else Except.ok ()⟩

theorem length_filter_split {α : Type} (f : α → Bool) (l : List α) :
    (l.filter (fun a => !f a)).length + (l.filter f).length = l.length := by
  induction l with
  | nil => rfl
  | cons a l ih => cases h : f a <;> simp [List.filter_cons, h] <;> omega

/-- C10: for every call to `insert_chunks`, if `docs` is empty, `vectors` is
empty, or the two lists differ in length, it raises `ValueError` before
constructing any index record and before contacting the vector engine. -/
theorem insert_chunks_validates_first (docs : List String) (vectors : List Nat)
    (env : BulkEnv) (h : docs = [] ∨ vectors = [] ∨ docs.length ≠ vectors.length) :
    insert_chunks docs vectors env = ⟨0, 0, none, Except.error InsErr.valueErr⟩ := by
  unfold insert_chunks
  rcases h with h | h | h <;> simp [h]

/-- Witness for C10 at a concrete invalid input. -/
theorem insert_chunks_validates_first_witness :
    insert_chunks ["a"] [] ⟨false, fun _ => false⟩ =
      ⟨0, 0, none, Except.error InsErr.valueErr⟩ :=
  insert_chunks_validates_first ["a"] [] ⟨false, fun _ => false⟩ (Or.inr (Or.inl rfl))

/-- C2: for a batch of N valid records of which M still fail after the
engine's retries, `insert_chunks` logs success = N − M with a failed count of
M, and raises the bulk-index error iff M > 0. -/
theorem insert_chunks_accounting (docs : List String) (vectors : List Nat)
    (env : BulkEnv) (hd : docs ≠ []) (hv : vectors ≠ [])
    (hlen : docs.length = vectors.length) (hnf : env.notFound = false) :
    (insert_chunks docs vectors env).report =
      some (docs.length - ((docs.zip vectors).filter env.failing).length,
        ((docs.zip vectors).filter env.failing).length) ∧
    ((insert_chunks docs vectors env).result =
        Except.error (InsErr.bulkIndexErr
          (((docs.zip vectors).filter env.failing).length)) ↔
      0 < ((docs.zip vectors).filter env.failing).length) ∧
    ((insert_chunks docs vectors env).result = Except.ok () ↔
      ((docs.zip vectors).filter env.failing).length = 0) := by
  have hsplit := length_filter_split env.failing (docs.zip vectors)
  have hzlen : (docs.zip vectors).length = docs.length := by
    rw [List.length_zip, hlen, Nat.min_self]
  have h1 : docs.isEmpty = false := by
    cases docs
    · exact absurd rfl hd
    · rfl
  have h2 : vectors.isEmpty = false := by
    cases vectors
    · exact absurd rfl hv
    · rfl
  have h3 : (docs.length != vectors.length) = false := by
    simp [bne, hlen]
  have hval : insert_chunks docs vectors env =
      ⟨(docs.zip vectors).length, 1,
        some ((((docs.zip vectors).filter fun a => !env.failing a).length),
          ((docs.zip vectors).filter env.failing).length),
        if 0 < ((docs.zip vectors).filter env.failing).length then
          Except.error (InsErr.bulkIndexErr
            (((docs.zip vectors).filter env.failing).length))
        else Except.ok ()⟩ := by
    unfold insert_chunks bulkUpsertContract
    simp only [h1, h2, h3, hnf, Bool.or_self, Bool.or_false, Bool.false_or,
      Bool.false_eq_true, if_false]
  rw [hval]
  have hre : (((docs.zip vectors).filter fun a => !env.failing a).length) =
      docs.length - ((docs.zip vectors).filter env.failing).length := by omega
  by_cases hM : 0 < ((docs.zip vectors).filter env.failing).length
  · rw [if_pos hM]
    refine ⟨by rw [hre], ⟨fun _ => hM, fun _ => rfl⟩, ?_⟩
    constructor
    · intro hcontra
      exact Except.noConfusion hcontra
    · intro h0
      exact absurd h0 (Nat.pos_iff_ne_zero.mp hM)
  · rw [if_neg hM]
    refine ⟨by rw [hre], ?_, ⟨fun _ => by omega, fun _ => rfl⟩⟩
    constructor
    · intro hcontra
      exact Except.noConfusion hcontra
    · intro hpos
      exact absurd hpos hM

/-- Witness for C2: two records, one engineered to fail; the report is
(1 succeeded, 1 failed) and the bulk-index error is raised. -/
theorem insert_chunks_accounting_witness :
    (insert_chunks ["a", "b"] [1, 2] ⟨false, fun a => a.2 == 2⟩).report =
      some (1, 1) ∧
    (insert_chunks ["a", "b"] [1, 2] ⟨false, fun a => a.2 == 2⟩).result =
      Except.error (InsErr.bulkIndexErr 1) := by
  have h := insert_chunks_accounting ["a", "b"] [1, 2] ⟨false, fun a => a.2 == 2⟩
    (by decide) (by decide) (by decide) (by decide)
  exact ⟨h.1, h.2.1.mpr (by decide)⟩

/-! ## Ingestion: `process_document` (`src/ingest.py` lines 18-92)

The per-document environment fixes the outcome of each external stage:
whether the file exists, what PDF text extraction produced (`ok none` is the
"no text, try OCR" signal), what OCR produced, how the recursive splitter
chunked the normalized text, what the embedding call produced, and how the
bulk upsert behaved.  The whole body of `process_document` runs inside
`try: ... except asyncio.TimeoutError: return 0, 0  except Exception: return 0, 0`. -/

/-- Outcome of one external call: a value, a raised error, or a timeout of
the surrounding `asyncio.wait_for`. -/
inductive StageOut (α : Type)
  | ok (a : α)
  | err
  | timeout
deriving DecidableEq

/-- Environment of one `process_document` run. -/
structure PDEnv where
  fileExists : Bool
  extractOut : StageOut (Option String)
  ocrOut : StageOut String
  split : String → List String
  embedOut : StageOut (List Nat)
  upsertTimeout : Bool
  bulk : BulkEnv

/-- The processing error the spec expects `process_document` to raise on a
post-embedding indexing failure. -/
inductive PDErr
  | procErr
deriving DecidableEq

/-- Continuation of `process_document` after a text was obtained
(`src/ingest.py` lines 50-85): empty text, normalization, chunking, the
embedding call, and the upsert, each failure path returning `(0, 0)` because
the enclosing `except` clauses catch every exception, including those raised
by `insert_chunks`. -/
def pdAfterText (env : PDEnv) (t : String) : Except PDErr (Nat × Nat) :=
  if t = "" then Except.ok (0, 0)
  else if (env.split (normalize_text t)).isEmpty then Except.ok (0, 0)
  else
    match env.embedOut with
    | StageOut.err => Except.ok (0, 0)
    | StageOut.timeout => Except.ok (0, 0)
    | StageOut.ok vecs =>
      if env.upsertTimeout then Except.ok (0, 0)
      else
        match (insert_chunks (env.split (normalize_text t)) vecs env.bulk).result with
        | Except.error _ => Except.ok (0, 0)
        | Except.ok _ => Except.ok (1, (env.split (normalize_text t)).length)

/-- `process_document(file_path)` from `src/ingest.py`. -/
def process_document (env : PDEnv) : Except PDErr (Nat × Nat) :=
  if !env.fileExists then Except.ok (0, 0)
  else
    match env.extractOut with
    | StageOut.err => Except.ok (0, 0)
    | StageOut.timeout => Except.ok (0, 0)
    | StageOut.ok none =>
      match env.ocrOut with
      | StageOut.err => Except.ok (0, 0)
      | StageOut.timeout => Except.ok (0, 0)
      | StageOut.ok t => pdAfterText env t
    | StageOut.ok (some t) => pdAfterText env t

/-- The text the pipeline proceeds with, when extraction/OCR reached one. -/
def reachedText (env : PDEnv) : Option String :=
  if !env.fileExists then none
  else
    match env.extractOut with
    | StageOut.err => none
    | StageOut.timeout => none
    | StageOut.ok none =>
      match env.ocrOut with
      | StageOut.err => none
      | StageOut.timeout => none
      | StageOut.ok t => some t
    | StageOut.ok (some t) => some t

/-- Given the reached text, does the run get to the post-embedding upsert
stage and have it fail or time out? -/
def upsertFailsAfter (env : PDEnv) (t : String) : Bool :=
  if t = "" then false
  else if (env.split (normalize_text t)).isEmpty then false
  else
    match env.embedOut with
    | StageOut.err => false
    | StageOut.timeout => false
    | StageOut.ok vecs =>
      env.upsertTimeout ||
        !(insert_chunks (env.split (normalize_text t)) vecs env.bulk).result.isOk

/-- Does the run reach the post-embedding upsert stage and have it fail or
time out?  (The claimed condition for `process_document` to raise.) -/
def upsertStageFails (env : PDEnv) : Bool :=
  match reachedText env with
  | none => false
  | some t => upsertFailsAfter env t

theorem pdAfterText_isOk (env : PDEnv) (t : String) :
    ∃ p, pdAfterText env t = Except.ok p := by
  unfold pdAfterText
  repeat' split
  all_goals exact ⟨_, rfl⟩

theorem process_document_isOk (env : PDEnv) :
    ∃ p, process_document env = Except.ok p := by
  unfold process_document
  repeat' split
  all_goals first
    | exact ⟨_, rfl⟩
    | exact pdAfterText_isOk env _

/-- `process_document` returns either `(0, 0)` or `(1, chunk count)`. -/
theorem process_document_cases (env : PDEnv) :
    process_document env = Except.ok (0, 0) ∨
      ∃ n, process_document env = Except.ok (1, n) := by
  unfold process_document pdAfterText
  repeat' split
  all_goals first
    | exact Or.inl rfl
    | exact Or.inr ⟨_, rfl⟩

theorem process_document_reached (env : PDEnv) :
    (reachedText env = none → process_document env = Except.ok (0, 0)) ∧
    (∀ t, reachedText env = some t → process_document env = pdAfterText env t) := by
  unfold reachedText process_document
  cases hfe : env.fileExists with
  | false => simp
  | true =>
    simp only [Bool.not_true, Bool.false_eq_true, if_false]
    cases hex : env.extractOut with
    | err => simp
    | timeout => simp
    | ok o =>
      cases o with
      | none =>
        cases hocr : env.ocrOut with
        | err => simp
        | timeout => simp
        | ok t => simp
      | some t => simp

theorem pdAfterText_absorbs (env : PDEnv) (t : String)
    (h : upsertFailsAfter env t = true) : pdAfterText env t = Except.ok (0, 0) := by
  obtain ⟨fe, ex, ocr, sp, emb, ut, bulk⟩ := env
  unfold upsertFailsAfter at h
  unfold pdAfterText
  dsimp only at h ⊢
  by_cases ht : t = ""
  · rw [if_pos ht] at h
    exact absurd h (by simp)
  · rw [if_neg ht] at h ⊢
    by_cases hc : (sp (normalize_text t)).isEmpty
    · rw [if_pos hc] at h
      exact absurd h (by simp)
    · rw [if_neg hc] at h ⊢
      cases emb with
      | err => exact rfl
      | timeout => exact rfl
      | ok vecs =>
        dsimp only at h ⊢
        cases ut with
        | true => exact rfl
        | false =>
          simp only [Bool.false_or] at h
          cases hres : (insert_chunks (sp (normalize_text t)) vecs bulk).result with
          | error e => exact rfl
          | ok u =>
            rw [hres] at h
            simp [Except.isOk, Except.toBool] at h

/-- Environment where every stage succeeds but every record fails indexing,
so the post-embedding upsert stage raises inside `insert_chunks`. -/
def envUpsertFail : PDEnv :=
  { fileExists := true
    extractOut := StageOut.ok (some "hello world")
    ocrOut := StageOut.err
    split := fun t => [t]
    embedOut := StageOut.ok [7]
    upsertTimeout := false
    bulk := ⟨false, fun _ => true⟩ }

/-- C1 (counterexample): it is not the case that `process_document` raises
when (and only when) the post-embedding upsert stage fails: in
`envUpsertFail` the upsert stage fails, yet `process_document` returns
`(0, 0)` because its blanket `except Exception` clause also catches the
bulk-index error. -/
theorem process_document_upsert_fail_not_raised :
    ¬ ((∃ e, process_document envUpsertFail = Except.error e) ↔
        upsertStageFails envUpsertFail = true) := by
  intro hiff
  rcases hiff.mpr (by decide) with ⟨e, he⟩
  rw [show process_document envUpsertFail = Except.ok (0, 0) from by decide] at he
  exact Except.noConfusion he

/-- C1 (amended): `process_document` absorbs every recoverable stage failure
(extraction error, OCR error or timeout, no text, zero chunks, embedding
failure or timeout) by returning `(0, 0)`, and it also absorbs a failing or
timed-out post-embedding upsert the same way: it never raises a processing
error. -/
theorem process_document_never_raises (env : PDEnv) :
    (∀ e, process_document env ≠ Except.error e) ∧
    (upsertStageFails env = true → process_document env = Except.ok (0, 0)) := by
  constructor
  · intro e hcontra
    obtain ⟨p, hp⟩ := process_document_isOk env
    rw [hp] at hcontra
    exact Except.noConfusion hcontra
  · intro h
    unfold upsertStageFails at h
    cases hr : reachedText env with
    | none =>
      rw [hr] at h
      exact absurd h Bool.false_ne_true
    | some t =>
      rw [hr] at h
      rw [(process_document_reached env).2 t hr]
      exact pdAfterText_absorbs env t h

/-- Witness for the amended C1: in `envUpsertFail` the upsert stage fails
and `process_document` returns `(0, 0)`. -/
theorem process_document_never_raises_witness :
    upsertStageFails envUpsertFail = true ∧
    process_document envUpsertFail = Except.ok (0, 0) :=
  ⟨by decide, (process_document_never_raises envUpsertFail).2 (by decide)⟩

/-! ## Provider fallback (`src/llm_providers/fallback.py`)

A completion provider is a function from `(prompt, system_message)` to
either a completion text or the message of the exception it raised.  The
embedded `generate_completion` additionally reports how many times each
provider was invoked. -/

/-- Result of `FallbackLLMProvider.generate_completion`, instrumented with
the number of invocations of each provider. -/
structure GenOut where
  result : Except String String
  primaryCalls : Nat
  fallbackCalls : Nat
deriving DecidableEq

/-- `FallbackLLMProvider.generate_completion(prompt, system_message)` from
`src/llm_providers/fallback.py` lines 18-32. -/
def generate_completion (primary fallback : String → String → Except String String)
    (prompt system : String) : GenOut :=
  match primary prompt system with
  | Except.ok r => ⟨Except.ok r, 1, 0⟩
  | Except.error e =>
    match fallback prompt system with
    | Except.ok r => ⟨Except.ok r, 1, 1⟩
    | Except.error fe =>
      ⟨Except.error ("Both LLM providers failed. Primary error: " ++ e ++
        ", Fallback error: " ++ fe), 1, 1⟩

/-- C3: whenever the primary provider raises, the fallback is invoked
exactly once; a successful fallback result is returned as is, and if the
fallback raises too, the single raised error message embeds both the
primary cause and the fallback cause. -/
theorem generate_completion_fallback (primary fallback : String → String → Except String String)
    (prompt system : String) (e : String)
    (h : primary prompt system = Except.error e) :
    (generate_completion primary fallback prompt system).fallbackCalls = 1 ∧
    (∀ r, fallback prompt system = Except.ok r →
      (generate_completion primary fallback prompt system).result = Except.ok r) ∧
    (∀ fe, fallback prompt system = Except.error fe →
      ∃ a b, (generate_completion primary fallback prompt system).result =
        Except.error (a ++ e ++ b ++ fe)) := by
  unfold generate_completion
  rw [h]
  refine ⟨?_, ?_, ?_⟩
  · cases hf : fallback prompt system <;> rfl
  · intro r hr
    rw [hr]
  · intro fe hfe
    rw [hfe]
    exact ⟨"Both LLM providers failed. Primary error: ", ", Fallback error: ", rfl⟩

/-- Witness for C3: both providers fail at a concrete input. -/
theorem generate_completion_fallback_witness :
    (generate_completion (fun _ _ => Except.error "p boom")
      (fun _ _ => Except.error "f boom") "q" "s").fallbackCalls = 1 ∧
    (generate_completion (fun _ _ => Except.error "p boom")
      (fun _ _ => Except.error "f boom") "q" "s").result =
      Except.error
        "Both LLM providers failed. Primary error: p boom, Fallback error: f boom" := by
  have h := generate_completion_fallback (fun _ _ => Except.error "p boom")
    (fun _ _ => Except.error "f boom") "q" "s" "p boom" rfl
  exact ⟨h.1, by decide⟩

/-! ## RAG answer pipeline (`src/rag.py`)

`rag_answer` first asks the gateway whether the index is empty, then runs
`retrieve_context` (which validates the question, embeds it and performs the
k-NN search) and `generate_answer` (which short-circuits on empty context and
otherwise calls the fallback completion provider under a 30s timeout).  The
environment fixes the outcome of each external call; the instrumentation
counts how many emptiness checks, embedding calls, search calls and
completion calls were issued. -/

/-- Outcome of the k-NN search call inside `retrieve_context`. -/
inductive SearchOut
  | hits (contexts : List String)
  | notFound
  | err
  | timeout
deriving DecidableEq

/-- Environment of one `rag_answer` run. -/
structure RagEnv where
  isEmptyResult : Bool
  question : String
  embedQOut : StageOut Nat
  searchOut : SearchOut
  primary : String → String → Except String String
  fallback : String → String → Except String String
  genTimeout : Bool

/-- The exceptions `rag_answer` can propagate. -/
inductive RagErr
  | valueErr
  | embedErr
  | embedTimeout
  | searchErr
  | searchTimeout
  | bothFailed (msg : String)
deriving DecidableEq

/-- Numbers of external calls issued during one `rag_answer` run. -/
structure RagCounts where
  emptinessChecks : Nat
  embedCalls : Nat
  searchCalls : Nat
  completionCalls : Nat
deriving DecidableEq

/-- The fixed empty-knowledge-base answer (`src/rag.py` line 104). -/
def noDocsMessage : String :=
  "I apologize, but there are no documents in the knowledge base yet. Please upload some PDF documents first so I can help answer your questions."

/-- The fixed empty-context answer (`src/rag.py` line 68). -/
def noContextMessage : String :=
  "I apologize, but I don\x27t have enough context to answer your question accurately."

/-- The fixed generation-timeout answer (`src/rag.py` line 92). -/
def genTimeoutMessage : String :=
  "I apologize, but I was unable to generate an answer in time. Please try again."

/-- The system message of `generate_answer` (`src/rag.py` line 82). -/
def ragSystemMessage : String :=
  "You are a helpful assistant that provides accurate answers based only on the provided context. If you cannot answer based on the context, say so clearly."

/-- The prompt `generate_answer` builds (`src/rag.py` lines 73-80). -/
def buildPrompt (question : String) (contexts : List String) : String :=
  "Answer the question based only on the following context. If the context doesn\x27t contain enough information to answer accurately, say so.\n\nContext:\n" ++
    String.intercalate " " contexts ++ "\n\nQuestion: " ++ question ++ "\n\nAnswer:"

/-- `rag_answer(question)` from `src/rag.py` lines 97-112, composed with
`retrieve_context` (lines 11-63) and `generate_answer` (lines 65-95). -/
def rag_answer (env : RagEnv) : Except RagErr (String × List String) × RagCounts :=
  if env.isEmptyResult then
    (Except.ok (noDocsMessage, []), ⟨1, 0, 0, 0⟩)
  else if (pyStrip env.question.data).isEmpty then
    (Except.error RagErr.valueErr, ⟨1, 0, 0, 0⟩)
  else
    match env.embedQOut with
    | StageOut.timeout => (Except.error RagErr.embedTimeout, ⟨1, 1, 0, 0⟩)
    | StageOut.err => (Except.error RagErr.embedErr, ⟨1, 1, 0, 0⟩)
    | StageOut.ok _ =>
      match env.searchOut with
      | SearchOut.timeout => (Except.error RagErr.searchTimeout, ⟨1, 1, 1, 0⟩)
      | SearchOut.err => (Except.error RagErr.searchErr, ⟨1, 1, 1, 0⟩)
      | SearchOut.notFound => (Except.ok (noContextMessage, []), ⟨1, 1, 1, 0⟩)
      | SearchOut.hits contexts =>
        if contexts.isEmpty then (Except.ok (noContextMessage, []), ⟨1, 1, 1, 0⟩)
        else if env.genTimeout then
          (Except.ok (genTimeoutMessage, contexts), ⟨1, 1, 1, 1⟩)
        else
          match (generate_completion env.primary env.fallback
              (buildPrompt env.question contexts) ragSystemMessage).result with
          | Except.ok ans => (Except.ok (ans, contexts), ⟨1, 1, 1, 1⟩)
          | Except.error m => (Except.error (RagErr.bothFailed m), ⟨1, 1, 1, 1⟩)

/-- C4: whenever the emptiness check reports the index empty, `rag_answer`
returns the fixed no-documents message with an empty context list and issues
zero embedding calls and zero completion calls. -/
theorem rag_answer_empty_short_circuit (env : RagEnv)
    (h : env.isEmptyResult = true) :
    rag_answer env = (Except.ok (noDocsMessage, []), ⟨1, 0, 0, 0⟩) := by
  unfold rag_answer
  rw [if_pos h]

/-- Witness for C4 at a concrete environment. -/
theorem rag_answer_empty_short_circuit_witness :
    rag_answer ⟨true, "what is X?", StageOut.ok 0, SearchOut.hits ["c"],
        fun _ _ => Except.ok "a", fun _ _ => Except.ok "a", false⟩ =
      (Except.ok (noDocsMessage, []), ⟨1, 0, 0, 0⟩) :=
  rag_answer_empty_short_circuit _ rfl

/-- Environment with a blank question and an empty index. -/
def envBlankEmpty : RagEnv :=
  ⟨true, "", StageOut.ok 0, SearchOut.hits ["c"],
    fun _ _ => Except.ok "a", fun _ _ => Except.ok "a", false⟩

/-- C5 (counterexample): a blank question does not fail with a validation
error before any external call.  With the index empty, `rag_answer ""` runs
the index-emptiness check (one external call) and returns the fixed
no-documents message instead of raising a validation error, because
`rag_answer` consults `is_index_empty` before `retrieve_context` validates
the question. -/
theorem rag_answer_blank_question_not_validated_first :
    envBlankEmpty.question = "" ∧
    (rag_answer envBlankEmpty).2.emptinessChecks = 1 ∧
    (rag_answer envBlankEmpty).1 = Except.ok (noDocsMessage, []) ∧
    (rag_answer envBlankEmpty).1 ≠ Except.error RagErr.valueErr := by
  refine ⟨rfl, rfl, rfl, ?_⟩
  intro hcontra
  rw [show (rag_answer envBlankEmpty).1 = Except.ok (noDocsMessage, []) from rfl] at hcontra
  exact Except.noConfusion hcontra

/-- C5 (amended): for every blank or whitespace-only question, when the
index-emptiness check reports the index non-empty, the answer pipeline fails
with a validation error after that emptiness check but before any embedding,
search, or completion call; when the check reports empty, the fixed
no-documents message is returned instead and no validation error is raised. -/
theorem rag_answer_blank_question_validation (env : RagEnv)
    (hq : (pyStrip env.question.data).isEmpty = true)
    (he : env.isEmptyResult = false) :
    rag_answer env = (Except.error RagErr.valueErr, ⟨1, 0, 0, 0⟩) := by
  unfold rag_answer
  rw [if_neg (by rw [he]; exact Bool.false_ne_true), if_pos hq]

/-- Witness for the amended C5: a whitespace-only question against a
non-empty index. -/
theorem rag_answer_blank_question_validation_witness :
    rag_answer ⟨false, "   ", StageOut.ok 0, SearchOut.hits ["c"],
        fun _ _ => Except.ok "a", fun _ _ => Except.ok "a", false⟩ =
      (Except.error RagErr.valueErr, ⟨1, 0, 0, 0⟩) :=
  rag_answer_blank_question_validation _ (by decide) rfl

/-! ## Health check (`src/es_client.py`, `ESClient.check_health`) -/

/-- Environment of one health check: whether the client, cluster-health and
index-existence calls all succeed, the engine's reported cluster status, and
the configured index name and current timestamp. -/
structure HealthEnv where
  callsOk : Bool
  clusterStatus : String
  indexExists : Bool
  indexName : String
  now : String

/-- The dictionary `check_health` returns. -/
structure HealthInfo where
  status : String
  message : String
  timestamp : String
deriving DecidableEq

/-- `ESClient.check_health()` from `src/es_client.py` lines 87-120. -/
def check_health (env : HealthEnv) : HealthInfo :=
  if !env.callsOk then
    ⟨"red", "Service is unavailable", env.now⟩
  else if !env.indexExists then
    ⟨"red", "Index " ++ env.indexName ++ " does not exist", env.now⟩
  else
    ⟨env.clusterStatus,
      if env.clusterStatus = "green" || env.clusterStatus = "yellow" then
        "Service is healthy"
      else "Service is degraded",
      env.now⟩

/-- C9 (code bug): with the cluster yellow and the index present,
`check_health` reports the message "Service is healthy", not a degraded
result — the condition at `src/es_client.py` lines 108-110 sends both
"green" and "yellow" to the healthy message, contradicting the endpoint's
own documented example in `src/main.py` (lines 80-87), which shows yellow
with "Service is degraded". -/
theorem check_health_yellow_reports_healthy :
    check_health ⟨true, "yellow", true, "docs", "t0"⟩ =
      ⟨"yellow", "Service is healthy", "t0"⟩ := by decide

/-! ## Batch upload (`src/main.py`, `upload_documents`)

Each uploaded file carries its name, whether the temporary-file write
succeeds, and the environment of its `process_document` run.  The
`asyncio.gather` fan-out is non-fail-fast and every file is processed
independently, so the batch outcome is the fold of the per-file outcomes;
the embedding lists failure entries with validation failures first
(the completion order of the concurrent appends does not affect the
verified claims). -/

/-- One uploaded file. -/
structure UFile where
  filename : String
  uploadOk : Bool
  pdenv : PDEnv

/-- `file.filename.lower().endswith(".pdf")` (`src/main.py` line 219). -/
def isPdfName (s : String) : Bool :=
  List.isSuffixOf ".pdf".data (s.data.map Char.toLower)

/-- `DocumentResponse` from `src/schemas.py`. -/
structure DocResponse where
  message : String
  documents_indexed : Nat
  total_chunks : Nat
  failed_files : List String
deriving DecidableEq

/-- `process_single_file` from `src/main.py` lines 233-257: the
`(docs, chunks)` pair it returns and the failed-files entry it appends. -/
def fileOutcome (f : UFile) : (Nat × Nat) × Option String :=
  if !f.uploadOk then ((0, 0), some (f.filename ++ " (upload error)"))
  else
    match process_document f.pdenv with
    | Except.ok p => (p, none)
    | Except.error _ => ((0, 0), some (f.filename ++ " (processing error)"))

/-- The files passing PDF validation (`src/main.py` lines 218-223). -/
def validFiles (files : List UFile) : List UFile :=
  files.filter (fun f => isPdfName f.filename)

/-- The validation-failure entries (`src/main.py` line 221). -/
def validationFailures (files : List UFile) : List String :=
  (files.filter (fun f => !isPdfName f.filename)).map
    (fun f => f.filename ++ " (not a PDF)")

/-- `total_docs` (`src/main.py` line 263). -/
def totalDocs (files : List UFile) : Nat :=
  ((validFiles files).map (fun f => (fileOutcome f).1.1)).sum

/-- `total_chunks` (`src/main.py` line 264). -/
def totalChunks (files : List UFile) : Nat :=
  ((validFiles files).map (fun f => (fileOutcome f).1.2)).sum

/-- The complete `failed_files` list: validation failures plus per-file
upload/processing failures. -/
def failedEntries (files : List UFile) : List String :=
  validationFailures files ++ (validFiles files).filterMap (fun f => (fileOutcome f).2)

/-- `upload_documents(files)` from `src/main.py` lines 173-284. -/
def upload_documents (files : List UFile) : Except String DocResponse :=
  if files.isEmpty then
    Except.ok ⟨"No documents were provided. Please upload at least one PDF file.",
      0, 0, []⟩
  else if (validFiles files).isEmpty then
    Except.ok ⟨"No valid PDF files were provided. Please upload PDF files only.",
      0, 0, validationFailures files⟩
  else if totalDocs files = 0 ∧ failedEntries files ≠ [] then
    Except.error ("No documents were processed successfully. Failures: " ++
      String.intercalate ", " (failedEntries files))
  else
    Except.ok ⟨(if (failedEntries files).isEmpty then "Documents processed successfully"
      else "Some documents failed to process"),
      totalDocs files, totalChunks files, failedEntries files⟩

/-- A file succeeds when it passes PDF validation, its upload works, and its
pipeline run indexes it (`process_document` reports one document). -/
def fileSucceeds (f : UFile) : Bool :=
  isPdfName f.filename && f.uploadOk &&
    match process_document f.pdenv with
    | Except.ok p => p.1 == 1
    | Except.error _ => false

/-- The number of files whose whole pipeline succeeded. -/
def succeededCount (files : List UFile) : Nat := files.countP fileSucceeds

theorem fileOutcome_docs (f : UFile) :
    (fileOutcome f).1.1 = (if (f.uploadOk &&
      match process_document f.pdenv with
      | Except.ok p => p.1 == 1
      | Except.error _ => false) = true then 1 else 0) := by
  unfold fileOutcome
  cases hu : f.uploadOk with
  | false => rfl
  | true =>
    rcases process_document_cases f.pdenv with h | ⟨n, h⟩
    · rw [h]
      rfl
    · rw [h]
      rfl

theorem totalDocs_eq_succeeded (files : List UFile) :
    totalDocs files = succeededCount files := by
  unfold totalDocs succeededCount validFiles
  induction files with
  | nil => rfl
  | cons f fs ih =>
    rw [List.filter_cons, List.countP_cons]
    cases hp : isPdfName f.filename with
    | false =>
      have hfs : fileSucceeds f = false := by
        unfold fileSucceeds
        rw [hp]
        rfl
      simp only [Bool.false_eq_true, if_false, hfs, ih]
      omega
    | true =>
      have hfs : fileSucceeds f = (f.uploadOk &&
          match process_document f.pdenv with
          | Except.ok p => p.1 == 1
          | Except.error _ => false) := by
        unfold fileSucceeds
        rw [hp]
        rw [Bool.true_and]
      simp only [if_true, List.map_cons, List.sum_cons, hfs, ih,
        fileOutcome_docs f]
      omega

theorem succeededCount_zero_of_novalid (files : List UFile)
    (hv : (validFiles files).isEmpty = true) : succeededCount files = 0 := by
  unfold succeededCount
  have hval : validFiles files = [] := List.isEmpty_iff.mp hv
  have hfil : files.filter fileSucceeds = [] := by
    rw [List.filter_eq_nil_iff]
    intro f hf hsf
    have hp : isPdfName f.filename = true := by
      cases hq : isPdfName f.filename with
      | true => rfl
      | false =>
        unfold fileSucceeds at hsf
        rw [hq] at hsf
        exact absurd hsf (by simp)
    have hmem : f ∈ validFiles files := List.mem_filter.mpr ⟨hf, hp⟩
    rw [hval] at hmem
    exact absurd hmem (List.not_mem_nil f)
  rw [List.countP_eq_length_filter, hfil]
  rfl

/-- C6: the batch upload raises only when no file succeeded and at least one
file was attempted, and in that case the error detail reports every failed
file by name and reason; otherwise it returns the partial-success response
whose `documents_indexed` is exactly the number of files whose pipeline
succeeded, whose `total_chunks` aggregates over the valid files, and whose
`failed_files` lists validation and processing failures. -/
theorem upload_documents_batch (files : List UFile) :
    (∀ d, upload_documents files = Except.error d →
      succeededCount files = 0 ∧ files ≠ [] ∧
      d = "No documents were processed successfully. Failures: " ++
        String.intercalate ", " (failedEntries files)) ∧
    (∀ r, upload_documents files = Except.ok r →
      r.documents_indexed = succeededCount files ∧
      r.total_chunks = totalChunks files ∧
      r.failed_files = failedEntries files) := by
  unfold upload_documents
  by_cases h0 : files.isEmpty
  · rw [if_pos h0]
    have hnil : files = [] := List.isEmpty_iff.mp h0
    subst hnil
    constructor
    · intro d hd
      exact Except.noConfusion hd
    · intro r hr
      injection hr with hr2
      subst hr2
      exact ⟨rfl, rfl, rfl⟩
  · rw [if_neg h0]
    have hne : files ≠ [] := by
      intro hcontra
      subst hcontra
      exact h0 rfl
    by_cases hv : (validFiles files).isEmpty
    · rw [if_pos hv]
      constructor
      · intro d hd
        exact Except.noConfusion hd
      · intro r hr
        injection hr with hr2
        subst hr2
        refine ⟨?_, ?_, ?_⟩
        · exact (succeededCount_zero_of_novalid files hv).symm
        · unfold totalChunks
          rw [List.isEmpty_iff.mp hv]
          rfl
        · unfold failedEntries
          rw [List.isEmpty_iff.mp hv]
          simp
    · rw [if_neg hv]
      by_cases hz : totalDocs files = 0 ∧ failedEntries files ≠ []
      · rw [if_pos hz]
        constructor
        · intro d hd
          injection hd with hd2
          refine ⟨?_, hne, hd2.symm⟩
          rw [← totalDocs_eq_succeeded]
          exact hz.1
        · intro r hr
          exact Except.noConfusion hr
      · rw [if_neg hz]
        constructor
        · intro d hd
          exact Except.noConfusion hd
        · intro r hr
          injection hr with hr2
          subst hr2
          exact ⟨totalDocs_eq_succeeded files, rfl, rfl⟩

/-- Pipeline environment used by the batch-upload witness. -/
def envC6 : PDEnv :=
  { fileExists := false
    extractOut := StageOut.err
    ocrOut := StageOut.err
    split := fun _ => []
    embedOut := StageOut.err
    upsertTimeout := false
    bulk := ⟨false, fun _ => false⟩ }

/-- Witness for C6: a single valid-named PDF whose upload fails; the batch
raises with the failure reported, zero successes, one attempted file. -/
theorem upload_documents_batch_witness :
    succeededCount [⟨"a.pdf", false, envC6⟩] = 0 ∧
    ([⟨"a.pdf", false, envC6⟩] : List UFile) ≠ [] ∧
    "No documents were processed successfully. Failures: a.pdf (upload error)" =
      "No documents were processed successfully. Failures: " ++
        String.intercalate ", " (failedEntries [⟨"a.pdf", false, envC6⟩]) :=
  (upload_documents_batch [⟨"a.pdf", false, envC6⟩]).1
    "No documents were processed successfully. Failures: a.pdf (upload error)"
    (by decide)
